import Mathlib

set_option linter.unusedVariables false

/-! Shallow embedding of the Buffett Indicator app's data layer:
`main.py` (`_fetch_indicator_for_country`, `fetch_for_countries`,
`combine_countries_to_df`) and the missing-year handling of `Home.py`
(`combined.interpolate(method="linear")`).

Machine floats are modelled by `PFloat`: exact rationals extended with
signed infinities and NaN, with IEEE-style propagation rules for the
arithmetic the code performs.  As in pandas, `NaN` doubles as the
"absent value" marker of a table cell. -/

/-- JSON values, as produced by `resp.json()` in `main.py`. -/
inductive Json where
  | null : Json
  | bool : Bool → Json
  | num : ℚ → Json
  | str : String → Json
  | arr : List Json → Json
  | obj : List (String × Json) → Json

/-- A pandas float cell: a rational, a signed infinity, or NaN.
`nan` is also how pandas marks a missing (absent) cell. -/
inductive PFloat where
  | nan : PFloat
  | inf : PFloat
  | neginf : PFloat
  | num : ℚ → PFloat
deriving DecidableEq, Repr

/-- IEEE-style addition on `PFloat`. -/
def pfAdd : PFloat → PFloat → PFloat
  | .nan, _ => .nan
  | _, .nan => .nan
  | .inf, .neginf => .nan
  | .neginf, .inf => .nan
  | .inf, _ => .inf
  | .neginf, _ => .neginf
  | .num _, .inf => .inf
  | .num _, .neginf => .neginf
  | .num a, .num b => .num (a + b)

/-- IEEE-style subtraction on `PFloat`. -/
def pfSub : PFloat → PFloat → PFloat
  | .nan, _ => .nan
  | _, .nan => .nan
  | .inf, .inf => .nan
  | .neginf, .neginf => .nan
  | .inf, _ => .inf
  | .neginf, _ => .neginf
  | .num _, .inf => .neginf
  | .num _, .neginf => .inf
  | .num a, .num b => .num (a - b)

/-- IEEE-style multiplication on `PFloat`. -/
def pfMul : PFloat → PFloat → PFloat
  | .nan, _ => .nan
  | _, .nan => .nan
  | .inf, .inf => .inf
  | .inf, .neginf => .neginf
  | .neginf, .inf => .neginf
  | .neginf, .neginf => .inf
  | .inf, .num b => if 0 < b then .inf else if b < 0 then .neginf else .nan
  | .neginf, .num b => if 0 < b then .neginf else if b < 0 then .inf else .nan
  | .num a, .inf => if 0 < a then .inf else if a < 0 then .neginf else .nan
  | .num a, .neginf => if 0 < a then .neginf else if a < 0 then .inf else .nan
  | .num a, .num b => .num (a * b)

/-- IEEE-style division on `PFloat` (a single zero: `num 0`, no signed
zero).  Division of a nonzero finite number by zero yields a signed
infinity and `0 / 0` yields NaN, exactly as numpy float division does in
`df["market_cap"] / df["gdp"]`. -/
def pfDiv : PFloat → PFloat → PFloat
  | .nan, _ => .nan
  | _, .nan => .nan
  | .inf, .inf => .nan
  | .inf, .neginf => .nan
  | .neginf, .inf => .nan
  | .neginf, .neginf => .nan
  | .inf, .num b => if b < 0 then .neginf else .inf
  | .neginf, .num b => if b < 0 then .inf else .neginf
  | .num _, .inf => .num 0
  | .num _, .neginf => .num 0
  | .num a, .num b =>
      if b = 0 then (if 0 < a then .inf else if a < 0 then .neginf else .nan)
      else .num (a / b)

/-- A cell is a finite number (present and neither NaN nor infinite). -/
def PFloat.isFinite : PFloat → Bool
  | .num _ => true
  | _ => false

/-- Python exceptions raised by the embedded code. -/
inductive PyErr where
  | keyError : String → PyErr
  | valueError : PyErr
  | typeError : PyErr
  | httpError : Nat → PyErr
deriving DecidableEq, Repr

/-- Value of a nonempty all-digits character list (otherwise `none`). -/
def digitsVal (cs : List Char) : Option Nat :=
  if cs.isEmpty then none
  else cs.foldl
    (fun acc c => acc.bind (fun n => if c.isDigit then some (n * 10 + (c.toNat - 48)) else none))
    (some 0)

/-- Strip leading and trailing whitespace from a character list, as
Python `int()` and `float()` do on their string argument. -/
def pyStrTrim (cs : List Char) : List Char :=
  ((cs.dropWhile Char.isWhitespace).reverse.dropWhile Char.isWhitespace).reverse

/-- Model of Python `int(s)` on a string: surrounding whitespace is
stripped, an optional sign is followed by decimal digits.  (Underscore
separators of Python 3.6 number literals are not modelled.) -/
def pyIntOfString (s : String) : Option Int :=
  match pyStrTrim s.toList with
  | [] => none
  | c :: cs =>
    if c = '-' then (digitsVal cs).map (fun n => -(n : Int))
    else if c = '+' then (digitsVal cs).map (fun n => (n : Int))
    else (digitsVal (c :: cs)).map (fun n => (n : Int))

/-- Model of Python `float(s)` on a string: optional sign, decimal
digits with an optional fractional part.  (Exponent and infinity forms
are not modelled; no claim exercises them.) -/
def pyFloatOfString (s : String) : Option ℚ :=
  match pyStrTrim s.toList with
  | [] => none
  | c :: cs =>
    let sgn : ℚ := if c = '-' then -1 else 1
    let body := if c = '-' ∨ c = '+' then cs else c :: cs
    let ip := body.takeWhile (fun d => d ≠ '.')
    let rest := body.dropWhile (fun d => d ≠ '.')
    match rest with
    | [] => (digitsVal ip).map (fun n => sgn * (n : ℚ))
    | _ :: fp =>
      if ip.isEmpty && fp.isEmpty then none
      else if ip.all Char.isDigit && fp.all Char.isDigit then
        some (sgn * (((digitsVal (if ip.isEmpty then ['0'] else ip)).getD 0 : ℚ)
          + ((digitsVal (if fp.isEmpty then ['0'] else fp)).getD 0 : ℚ) / (10 ^ fp.length)))
      else none

/-- Truncation of a rational toward zero, as Python `int()` does on a float. -/
def ratTrunc (q : ℚ) : Int :=
  if q < 0 then -((-q).floor) else q.floor

/-- Model of Python `int(x)` applied to a JSON value x. -/
def pyInt : Json → Except PyErr Int
  | .str s =>
    match pyIntOfString s with
    | some n => .ok n
    | none => .error .valueError
  | .num q => .ok (ratTrunc q)
  | .bool b => .ok (if b then 1 else 0)
  | _ => .error .typeError

/-- Model of Python `float(x)` applied to a JSON value x. -/
def pyFloat : Json → Except PyErr ℚ
  | .num q => .ok q
  | .bool b => .ok (if b then 1 else 0)
  | .str s =>
    match pyFloatOfString s with
    | some q => .ok q
    | none => .error .valueError
  | _ => .error .typeError

/-- Python dict subscript on a parsed JSON object: with duplicate keys
the last occurrence wins, as in `json.loads`. -/
def jsonGet (fields : List (String × Json)) (k : String) : Option Json :=
  (fields.reverse.find? (fun p => p.1 == k)).map Prod.snd

/-- One pandas float series indexed by year, as an association list
(year, cell).  `pd.Series` over the `values` dict in `main.py`. -/
abbrev Series := List (Int × PFloat)

/-- Cell of a series at a year: the stored value, or NaN (absent) when
the year is not in the index. -/
def sLookup (s : Series) (y : Int) : PFloat :=
  match s.find? (fun p => p.1 == y) with
  | some p => p.2
  | none => .nan

/-- Python dict assignment `values[year] = val`: replace in place when
the key exists, append otherwise (insertion order preserved). -/
def dictInsert (d : Series) (y : Int) (v : PFloat) : Series :=
  if d.any (fun p => p.1 == y) then d.map (fun p => if p.1 == y then (y, v) else p)
  else d ++ [(y, v)]

/-- The `values` dict built by the record loop of
`_fetch_indicator_for_country`. -/
def toDict (recs : List (Int × PFloat)) : Series :=
  recs.foldl (fun d r => dictInsert d r.1 r.2) []

/-- `pd.Series(values).sort_index()`: the dict entries sorted ascending
by year. -/
def buildSeries (recs : List (Int × PFloat)) : Series :=
  List.insertionSort (fun a b => a.1 ≤ b.1) (toDict recs)

/-- One iteration of the record loop: `year = int(item["date"])`, then
`val = item["value"]`, kept as NaN when `val` is JSON null and as
`float(val)` otherwise.  Subscripting a non-object raises TypeError. -/
def parseRecord : Json → Except PyErr (Int × PFloat)
  | .obj fields =>
    (match jsonGet fields "date" with
     | none => .error (.keyError "date")
     | some d =>
       match pyInt d with
       | .error e => .error e
       | .ok year =>
         match jsonGet fields "value" with
         | none => .error (.keyError "value")
         | some .null => .ok (year, .nan)
         | some v =>
           match pyFloat v with
           | .error e => .error e
           | .ok q => .ok (year, .num q))
  | _ => .error .typeError

/-- Python `for item in records`: a JSON array yields its elements, a
string its characters, an object its keys; other values are not
iterable (TypeError). -/
def iterRecords : Json → Except PyErr (List Json)
  | .arr l => .ok l
  | .str s => .ok (s.toList.map (fun c => Json.str c.toString))
  | .obj fields => .ok (fields.map (fun p => Json.str p.1))
  | _ => .error .typeError

/-- The record loop of `_fetch_indicator_for_country`: parse records in
order, aborting with the first raised exception. -/
def parseRecords : List Json → Except PyErr (List (Int × PFloat))
  | [] => .ok []
  | item :: rest =>
    match parseRecord item with
    | .error e => .error e
    | .ok r =>
      match parseRecords rest with
      | .error e => .error e
      | .ok rs => .ok (r :: rs)

/-- Body handling of `_fetch_indicator_for_country` after
`data = resp.json()`: if `data` is not a list of length at least 2,
return an empty series; otherwise iterate `data[1]` into the `values`
dict and sort it by year. -/
def parseWBBody (data : Json) : Except PyErr Series :=
  match data with
  | .arr (_ :: records :: _) =>
    (match iterRecords records with
     | .error e => .error e
     | .ok items =>
       match parseRecords items with
       | .error e => .error e
       | .ok recs => .ok (buildSeries recs))
  | _ => .ok []

/-- An HTTP response: status code and parsed JSON body. -/
structure HttpResp where
  status : Nat
  body : Json

/-- The GET request `requests.get(url, params=params)` is about to issue. -/
structure WBRequest where
  url : String
  date : String
  format : String
  per_page : Nat

def WB_API : String := "https://api.worldbank.org/v2"

def MARKETCAP_IND : String := "CM.MKT.LCAP.CD"

def GDP_IND : String := "NY.GDP.MKTP.CD"

/-- The URL and params built by `_fetch_indicator_for_country`. -/
def requestFor (country_iso3 indicator : String) (start_year end_year : Int) : WBRequest :=
  ⟨WB_API ++ "/country/" ++ country_iso3 ++ "/indicator/" ++ indicator,
   toString start_year ++ ":" ++ toString end_year, "json", 1000⟩

/-- `_fetch_indicator_for_country` of `main.py`, with the network
modelled by an explicit `http` function.  The second component counts
the HTTP requests issued (the code performs exactly one, with no
validation of the year range before it).  `end_year=None` defaults to
the current year. -/
def _fetch_indicator_for_country (http : WBRequest → HttpResp)
    (country_iso3 indicator : String) (start_year : Int) (end_year : Option Int)
    (currentYear : Int) : Except PyErr Series × Nat :=
  let ey := end_year.getD currentYear
  let resp := http (requestFor country_iso3 indicator start_year ey)
  if 400 ≤ resp.status then (.error (.httpError resp.status), 1)
  else (parseWBBody resp.body, 1)

/-- `TOP10_COUNTRIES` of `main.py` (display name, ISO3). -/
def TOP10_COUNTRIES : List (String × String) :=
  [("United States", "USA"), ("China", "CHN"), ("Japan", "JPN"), ("India", "IND"),
   ("United Kingdom", "GBR"), ("France", "FRA"), ("Canada", "CAN"),
   ("Germany", "DEU"), ("Switzerland", "CHE"), ("Australia", "AUS")]

/-- `TOP10_COUNTRIES.get(name)`. -/
def lookupCountry (name : String) : Option String :=
  (TOP10_COUNTRIES.find? (fun p => p.1 == name)).map Prod.snd

/-- One row of a per-country table: the two fetched values and the
computed ratio column. -/
structure CRow where
  market_cap : PFloat
  gdp : PFloat
  buffett : PFloat
deriving DecidableEq, Repr

/-- Per-country table of `fetch_for_countries`, keyed by year. -/
abbrev CountryTable := List (Int × CRow)

/-- `pd.DataFrame({"market_cap": mc, "gdp": gdp})` followed by
`df["buffett"] = df["market_cap"] / df["gdp"]`: rows at the union of the
two series' years sorted ascending, with NaN where a series lacks the
year, and the ratio computed by float division on the aligned cells. -/
def buildCountryTable (mc gdp : Series) : CountryTable :=
  let years := List.insertionSort (fun a b => a ≤ b) ((mc.map Prod.fst ++ gdp.map Prod.fst).dedup)
  years.map (fun y => (y, ⟨sLookup mc y, sLookup gdp y, pfDiv (sLookup mc y) (sLookup gdp y)⟩))

/-- Ratio cell of a per-country table at a year (NaN when the year is
not a row). -/
def tLookupBuffett (t : CountryTable) (y : Int) : PFloat :=
  match t.find? (fun r => r.1 == y) with
  | some r => r.2.buffett
  | none => .nan

/-- `fetch_for_countries` of `main.py`.  Countries are processed in
order; an unsupported name raises ValueError when the loop reaches it.
The second component counts HTTP requests issued before returning or
raising (the `time.sleep` pacing is irrelevant to the result and not
modelled). -/
def fetch_for_countries (http : WBRequest → HttpResp) (countries : List String)
    (start_year : Int) (end_year : Option Int) (currentYear : Int) :
    Except PyErr (List (String × CountryTable)) × Nat :=
  match countries with
  | [] => (.ok [], 0)
  | name :: rest =>
    match lookupCountry name with
    | none => (.error .valueError, 0)
    | some iso =>
      match _fetch_indicator_for_country http iso MARKETCAP_IND start_year end_year currentYear with
      | (.error e, c1) => (.error e, c1)
      | (.ok mc, c1) =>
        match _fetch_indicator_for_country http iso GDP_IND start_year end_year currentYear with
        | (.error e, c2) => (.error e, c1 + c2)
        | (.ok gdp, c2) =>
          match fetch_for_countries http rest start_year end_year currentYear with
          | (.error e, cr) => (.error e, c1 + c2 + cr)
          | (.ok tail, cr) => (.ok ((name, buildCountryTable mc gdp) :: tail), c1 + c2 + cr)

/-- A pandas DataFrame with an integer (year) index: column names and
rows (year, cells in column order). -/
structure DataFrame where
  columns : List String
  rows : List (Int × List PFloat)
deriving DecidableEq, Repr

/-- The ratio column of a per-country table, as a series. -/
def tableBuffettSeries (t : CountryTable) : Series :=
  t.map (fun r => (r.1, r.2.buffett))

/-- `combine_countries_to_df` of `main.py`: per country take
`df["buffett"] * 100.0` named after the country, then
`pd.concat(frames, axis=1).sort_index()` — an outer join on year over
all frames, rows sorted ascending; an empty input dict yields
`pd.DataFrame()`. -/
def combine_countries_to_df (country_data : List (String × CountryTable)) : DataFrame :=
  let frames := country_data.map
    (fun p => (p.1, (tableBuffettSeries p.2).map (fun q => (q.1, pfMul q.2 (PFloat.num 100)))))
  if frames.isEmpty then ⟨[], []⟩
  else
    let years := List.insertionSort (fun a b => a ≤ b)
      ((frames.map (fun f => f.2.map Prod.fst)).flatten.dedup)
    ⟨frames.map Prod.fst, years.map (fun y => (y, frames.map (fun f => sLookup f.2 y)))⟩

/-- Cell of a DataFrame at a year and column position: NaN when the
year is not a row or the row is short. -/
def cellAt (df : DataFrame) (y : Int) (i : Nat) : PFloat :=
  match df.rows.find? (fun r => r.1 == y) with
  | some r => r.2.getD i .nan
  | none => .nan

/-- Gap filling of `Series.interpolate(method="linear")` once a first
known value `v` has been seen: `gap` counts the NaNs accumulated since
the last known value.  At the end of the column the pending gap is
filled with the last known value (pandas forward-fills a trailing gap);
between two known values the gap is filled linearly by position. -/
def interpGo (v : PFloat) (gap : Nat) : List PFloat → List PFloat
  | [] => List.replicate gap v
  | x :: xs =>
    if x = .nan then interpGo v (gap + 1) xs
    else (List.range gap).map
        (fun t : Nat => pfAdd v (pfMul (pfSub x v) (.num (((t : ℚ) + 1) / ((gap : ℚ) + 1)))))
      ++ x :: interpGo x 0 xs

/-- One column under `interpolate(method="linear")` (default
`limit_direction="forward"`): leading NaNs are left in place; after the
first known value, `interpGo` fills interior gaps linearly and
forward-fills a trailing gap. -/
def interpolateColumn : List PFloat → List PFloat
  | [] => []
  | x :: xs => if x = .nan then .nan :: interpolateColumn xs else x :: interpGo x 0 xs

/-- `combined.interpolate(method="linear")` in `Home.py`: each column
is interpolated independently; the index is unchanged. -/
def interpolate_linear (df : DataFrame) : DataFrame :=
  let cols := (List.range df.columns.length).map
    (fun i => interpolateColumn (df.rows.map (fun r => r.2.getD i .nan)))
  ⟨df.columns, (df.rows.map Prod.fst).enum.map (fun p => (p.2, cols.map (fun c => c.getD p.1 .nan)))⟩

/-! ### Concrete fixtures used by counterexamples and witnesses -/

/-- The market-cap series of the spec's worked example. -/
def mcEx : Series := [(2020, .num 100), (2021, .num 110)]

/-- The GDP series of the spec's worked example (zero GDP in 2021). -/
def gdpEx : Series := [(2020, .num 50), (2021, .num 0)]

/-- An HTTP stub answering 200 with a non-list JSON body. -/
def stubHttp : WBRequest → HttpResp := fun _ => ⟨200, Json.obj []⟩

/-- An HTTP stub answering a record whose year 1980 lies outside any
requested range starting at 1990. -/
def oorHttp : WBRequest → HttpResp := fun _ =>
  ⟨200, Json.arr [Json.null, Json.arr [Json.obj [("date", Json.str "1980"), ("value", Json.num 5)]]]⟩

/-- A record for year 1995 with value 7 (in range [1990, 2000]). -/
def recEx : Json := Json.obj [("date", Json.str "1995"), ("value", Json.num 7)]

/-- An HTTP stub answering one in-range record. -/
def stubHttp2 : WBRequest → HttpResp := fun _ =>
  ⟨200, Json.arr [Json.null, Json.arr [recEx]]⟩

/-- A record for year 2020 whose value is JSON null. -/
def nullRecEx : Json := Json.obj [("date", Json.str "2020"), ("value", Json.null)]

/-- An HTTP stub answering a well-shaped body holding a record that
lacks the "date" key. -/
def badHttp : WBRequest → HttpResp := fun _ =>
  ⟨200, Json.arr [Json.null, Json.arr [Json.obj [("value", Json.num 1)]]]⟩

/-- Example table for country A with years 2019 and 2020. -/
def tA : CountryTable :=
  [(2019, ⟨.num 1, .num 1, .num 1⟩), (2020, ⟨.num 2, .num 1, .num 2⟩)]

/-- Example table for country B with years 2020 and 2021. -/
def tB : CountryTable :=
  [(2020, ⟨.num 3, .num 1, .num 3⟩), (2021, ⟨.num 4, .num 1, .num 4⟩)]

/-- The two-country mapping of the spec's combine example. -/
def dataEx : List (String × CountryTable) := [("A", tA), ("B", tB)]

/-! ### Lookup and dictionary lemmas -/

theorem find?_beq_of_mem {l : List Int} {y : Int} (hy : y ∈ l) :
    l.find? (fun z => z == y) = some y := by
  induction l with
  | nil => cases hy
  | cons a t ih =>
    by_cases h : a = y
    · subst h
      exact List.find?_cons_of_pos _ (by simp)
    · rcases List.mem_cons.mp hy with h1 | h1
      · exact absurd h1.symm h
      · rw [List.find?_cons_of_neg _ (by simp [h]), ih h1]

theorem find?_keyMap {β : Type} (years : List Int) (f : Int → β) (y : Int) :
    (years.map (fun z => (z, f z))).find? (fun r => r.1 == y) =
      if y ∈ years then some (y, f y) else none := by
  rw [List.find?_map]
  by_cases hy : y ∈ years
  · rw [if_pos hy]
    have hc : ((fun (r : Int × β) => r.1 == y) ∘ (fun z => (z, f z))) = fun z => z == y := rfl
    rw [hc, find?_beq_of_mem hy]
    rfl
  · rw [if_neg hy]
    have hc : years.find? ((fun (r : Int × β) => r.1 == y) ∘ (fun z => (z, f z))) = none := by
      rw [List.find?_eq_none]
      intro x hx hxy
      have hxe : x = y := by simpa using hxy
      exact hy (hxe ▸ hx)
    rw [hc]
    rfl

theorem sLookup_eq_nan_of_not_mem {s : Series} {y : Int} (hy : y ∉ s.map Prod.fst) :
    sLookup s y = .nan := by
  unfold sLookup
  have hf : s.find? (fun p => p.1 == y) = none := by
    rw [List.find?_eq_none]
    intro p hp hpy
    have hpe : p.1 = y := by simpa using hpy
    have hm : p.1 ∈ s.map Prod.fst := List.mem_map_of_mem Prod.fst hp
    rw [hpe] at hm
    exact hy hm
  rw [hf]

theorem sLookup_mem_or_nan (s : Series) (y : Int) :
    sLookup s y = .nan ∨ (y, sLookup s y) ∈ s := by
  unfold sLookup
  cases hf : s.find? (fun p => p.1 == y) with
  | none => exact Or.inl rfl
  | some p =>
    right
    have hp := List.mem_of_find?_eq_some hf
    have hpy : p.1 = y := by simpa using List.find?_some hf
    have hpe : (y, p.2) = p := by rw [← hpy]
    rw [hpe]
    exact hp

theorem sLookup_valMap (s : Series) (g : PFloat → PFloat) (hg : g .nan = .nan) (y : Int) :
    sLookup (s.map (fun q => (q.1, g q.2))) y = g (sLookup s y) := by
  unfold sLookup
  rw [List.find?_map]
  have hc : ((fun (r : Int × PFloat) => r.1 == y) ∘ (fun q : Int × PFloat => (q.1, g q.2)))
      = (fun q : Int × PFloat => q.1 == y) := rfl
  rw [hc]
  cases s.find? (fun q : Int × PFloat => q.1 == y) with
  | none => exact hg.symm
  | some p => rfl

theorem sLookup_tableBuffettSeries (t : CountryTable) (y : Int) :
    sLookup (tableBuffettSeries t) y = tLookupBuffett t y := by
  unfold sLookup tableBuffettSeries tLookupBuffett
  rw [List.find?_map]
  have hc : ((fun (r : Int × PFloat) => r.1 == y) ∘ (fun r : Int × CRow => (r.1, r.2.buffett)))
      = (fun r : Int × CRow => r.1 == y) := rfl
  rw [hc]
  cases t.find? (fun r : Int × CRow => r.1 == y) <;> rfl

theorem tLookupBuffett_keyMap (years : List Int) (f : Int → CRow) (y : Int) :
    tLookupBuffett (years.map (fun z => (z, f z))) y =
      if y ∈ years then (f y).buffett else .nan := by
  unfold tLookupBuffett
  rw [find?_keyMap]
  by_cases hy : y ∈ years
  · rw [if_pos hy, if_pos hy]
  · rw [if_neg hy, if_neg hy]

theorem tLookupBuffett_build (mc gdp : Series) (y : Int) :
    tLookupBuffett (buildCountryTable mc gdp) y = pfDiv (sLookup mc y) (sLookup gdp y) := by
  show tLookupBuffett
    ((List.insertionSort (fun a b => a ≤ b) ((mc.map Prod.fst ++ gdp.map Prod.fst).dedup)).map
      (fun z => (z, ⟨sLookup mc z, sLookup gdp z, pfDiv (sLookup mc z) (sLookup gdp z)⟩))) y = _
  rw [tLookupBuffett_keyMap]
  by_cases hy : y ∈ List.insertionSort (fun a b => a ≤ b)
      ((mc.map Prod.fst ++ gdp.map Prod.fst).dedup)
  · rw [if_pos hy]
  · rw [if_neg hy]
    have hy2 : y ∉ mc.map Prod.fst ++ gdp.map Prod.fst := fun h =>
      hy ((List.mem_insertionSort _).mpr (List.mem_dedup.mpr h))
    have hmc : y ∉ mc.map Prod.fst := fun h => hy2 (List.mem_append_left _ h)
    have hgd : y ∉ gdp.map Prod.fst := fun h => hy2 (List.mem_append_right _ h)
    rw [sLookup_eq_nan_of_not_mem hmc, sLookup_eq_nan_of_not_mem hgd]
    rfl

theorem keys_dictInsert (d : Series) (y : Int) (v : PFloat) (z : Int) :
    z ∈ (dictInsert d y v).map Prod.fst ↔ z ∈ d.map Prod.fst ∨ z = y := by
  unfold dictInsert
  by_cases h : d.any (fun p => p.1 == y)
  · rw [if_pos h]
    have hfun : (Prod.fst ∘ fun p : Int × PFloat => if p.1 == y then (y, v) else p)
        = Prod.fst := by
      funext p
      by_cases hpy : p.1 = y
      · simp [hpy]
      · simp [hpy]
    rw [List.map_map, hfun]
    constructor
    · exact Or.inl
    · rintro (hz | rfl)
      · exact hz
      · rcases List.any_eq_true.mp h with ⟨p, hp, hpy⟩
        have hpe : p.1 = z := by simpa using hpy
        exact hpe ▸ List.mem_map_of_mem Prod.fst hp
  · rw [if_neg h]
    rw [List.map_append]
    simp

theorem keys_foldl_dictInsert (recs : List (Int × PFloat)) :
    ∀ (d : Series) (z : Int),
      z ∈ (recs.foldl (fun d r => dictInsert d r.1 r.2) d).map Prod.fst ↔
        z ∈ d.map Prod.fst ∨ z ∈ recs.map Prod.fst := by
  induction recs with
  | nil => intro d z; simp
  | cons r rest ih =>
    intro d z
    rw [List.foldl_cons, ih (dictInsert d r.1 r.2) z, keys_dictInsert]
    simp only [List.map_cons, List.mem_cons]
    tauto

theorem mem_keys_toDict (recs : List (Int × PFloat)) (z : Int) :
    z ∈ (toDict recs).map Prod.fst ↔ z ∈ recs.map Prod.fst := by
  unfold toDict
  rw [keys_foldl_dictInsert]
  simp

theorem foldl_dictInsert_eq_append (recs : List (Int × PFloat)) :
    ∀ d : Series, (∀ r ∈ recs, r.1 ∉ d.map Prod.fst) → (recs.map Prod.fst).Nodup →
      recs.foldl (fun d r => dictInsert d r.1 r.2) d = d ++ recs := by
  induction recs with
  | nil => intro d _ _; simp
  | cons r rest ih =>
    intro d hd hnd
    rw [List.map_cons, List.nodup_cons] at hnd
    have hany : d.any (fun p => p.1 == r.1) = false := by
      rw [List.any_eq_false]
      intro p hp hpy
      have hpe : p.1 = r.1 := by simpa using hpy
      exact hd r (List.mem_cons_self r rest) (hpe ▸ List.mem_map_of_mem Prod.fst hp)
    have hins : dictInsert d r.1 r.2 = d ++ [r] := by
      unfold dictInsert
      rw [hany]
      simp
    rw [List.foldl_cons, hins, ih (d ++ [r]) ?_ hnd.2]
    · rw [List.append_assoc, List.singleton_append]
    · intro r2 hr2 hmem
      rw [List.map_append] at hmem
      rcases List.mem_append.mp hmem with hm1 | hm1
      · exact hd r2 (List.mem_cons_of_mem r hr2) hm1
      · have hre : r2.1 = r.1 := by simpa using hm1
        exact hnd.1 (hre ▸ List.mem_map_of_mem Prod.fst hr2)

theorem toDict_eq_self {recs : List (Int × PFloat)} (hnd : (recs.map Prod.fst).Nodup) :
    toDict recs = recs := by
  unfold toDict
  rw [foldl_dictInsert_eq_append recs [] (by simp) hnd]
  simp

theorem mem_keys_buildSeries (recs : List (Int × PFloat)) (z : Int) :
    z ∈ (buildSeries recs).map Prod.fst ↔ z ∈ recs.map Prod.fst := by
  constructor
  · intro h
    rcases List.mem_map.mp h with ⟨p, hp, hpz⟩
    have hp2 : p ∈ toDict recs := (List.mem_insertionSort _).mp hp
    have hm := List.mem_map_of_mem Prod.fst hp2
    rw [hpz] at hm
    exact (mem_keys_toDict recs z).mp hm
  · intro h
    have h2 := (mem_keys_toDict recs z).mpr h
    rcases List.mem_map.mp h2 with ⟨p, hp, hpz⟩
    have hp2 : p ∈ buildSeries recs := (List.mem_insertionSort _).mpr hp
    exact hpz ▸ List.mem_map_of_mem Prod.fst hp2

theorem find?_pair_of_nodup {l : List (Int × PFloat)} (hnd : (l.map Prod.fst).Nodup)
    {y : Int} {v : PFloat} (hm : (y, v) ∈ l) :
    l.find? (fun p => p.1 == y) = some (y, v) := by
  induction l with
  | nil => cases hm
  | cons a t ih =>
    rw [List.map_cons, List.nodup_cons] at hnd
    rcases List.mem_cons.mp hm with h1 | h1
    · rw [← h1]
      exact List.find?_cons_of_pos _ (by simp)
    · have hy : y ∈ t.map Prod.fst := by
        have hmm := List.mem_map_of_mem Prod.fst h1
        simpa using hmm
      have hane : ¬ ((fun p : Int × PFloat => p.1 == y) a) = true := by
        simp only [beq_iff_eq]
        intro he
        exact hnd.1 (he ▸ hy)
      rw [@List.find?_cons_of_neg (Int × PFloat) (fun p => p.1 == y) a t hane]
      exact ih hnd.2 h1

theorem sLookup_buildSeries {recs : List (Int × PFloat)} (hnd : (recs.map Prod.fst).Nodup)
    {y : Int} {v : PFloat} (hm : (y, v) ∈ recs) :
    sLookup (buildSeries recs) y = v := by
  unfold sLookup
  have hperm : (buildSeries recs).Perm recs := by
    unfold buildSeries
    rw [toDict_eq_self hnd]
    exact List.perm_insertionSort _ _
  have hnd2 : ((buildSeries recs).map Prod.fst).Nodup := ((hperm.map Prod.fst).symm).nodup hnd
  have hm2 : (y, v) ∈ buildSeries recs := hperm.mem_iff.mpr hm
  rw [find?_pair_of_nodup hnd2 hm2]

/-! ### Record-loop lemmas -/

theorem parseRecords_ok_mem {items : List Json} {recs : List (Int × PFloat)}
    (hok : parseRecords items = .ok recs) {item : Json} (hmem : item ∈ items)
    {r : Int × PFloat} (hr : parseRecord item = .ok r) : r ∈ recs := by
  induction items generalizing recs with
  | nil => cases hmem
  | cons a t ih =>
    cases ha : parseRecord a with
    | error e => simp [parseRecords, ha] at hok
    | ok ra =>
      cases ht : parseRecords t with
      | error e => simp [parseRecords, ha, ht] at hok
      | ok rt =>
        simp only [parseRecords, ha, ht] at hok
        injection hok with hok
        subst hok
        rcases List.mem_cons.mp hmem with h1 | h1
        · subst h1
          rw [ha] at hr
          injection hr with hr
          rw [← hr]
          exact List.mem_cons_self _ _
        · exact List.mem_cons_of_mem _ (ih ht h1)

theorem parseRecords_error_of_mem {items : List Json} {item : Json} (hmem : item ∈ items)
    {e : PyErr} (he : parseRecord item = .error e) :
    ∃ e2, parseRecords items = .error e2 := by
  induction items with
  | nil => cases hmem
  | cons a t ih =>
    rcases List.mem_cons.mp hmem with h1 | h1
    · subst h1
      exact ⟨e, by simp [parseRecords, he]⟩
    · cases ha : parseRecord a with
      | error e3 => exact ⟨e3, by simp [parseRecords, ha]⟩
      | ok ra =>
        rcases ih h1 with ⟨e2, he2⟩
        exact ⟨e2, by simp [parseRecords, ha, he2]⟩

/-! ### Interpolation lemmas -/

theorem interpGo_replicate_nan (v : PFloat) (g : Nat) : ∀ c : Nat,
    interpGo v c (List.replicate g .nan) = List.replicate (c + g) v := by
  induction g with
  | zero => intro c; simp [interpGo]
  | succ n ih =>
    intro c
    rw [List.replicate_succ]
    have h1 : interpGo v c (.nan :: List.replicate n .nan)
        = interpGo v (c + 1) (List.replicate n .nan) := by
      simp [interpGo]
    rw [h1, ih (c + 1)]
    congr 1
    omega

theorem interpGo_gap_known (x : PFloat) (hx : x ≠ .nan) (xs : List PFloat) (v : PFloat)
    (g : Nat) : ∀ c : Nat,
    interpGo v c (List.replicate g .nan ++ x :: xs) =
      (List.range (c + g)).map
        (fun t : Nat => pfAdd v (pfMul (pfSub x v) (.num (((t : ℚ) + 1) / (((c + g : Nat) : ℚ) + 1)))))
      ++ x :: interpGo x 0 xs := by
  induction g with
  | zero =>
    intro c
    rw [List.replicate, List.nil_append]
    have h1 : interpGo v c (x :: xs) =
        (List.range c).map
          (fun t : Nat => pfAdd v (pfMul (pfSub x v) (.num (((t : ℚ) + 1) / ((c : ℚ) + 1)))))
        ++ x :: interpGo x 0 xs := by
      simp [interpGo, hx]
    rw [h1]
    rfl
  | succ n ih =>
    intro c
    rw [List.replicate_succ, List.cons_append]
    have h1 : interpGo v c (.nan :: (List.replicate n .nan ++ x :: xs))
        = interpGo v (c + 1) (List.replicate n .nan ++ x :: xs) := by
      simp [interpGo]
    rw [h1, ih (c + 1)]
    have h2 : c + 1 + n = c + (n + 1) := by omega
    rw [h2]

theorem interpolateColumn_leading (g : Nat) (xs : List PFloat) :
    interpolateColumn (List.replicate g .nan ++ xs) =
      List.replicate g .nan ++ interpolateColumn xs := by
  induction g with
  | zero => simp
  | succ n ih =>
    rw [List.replicate_succ, List.cons_append]
    have h1 : interpolateColumn (.nan :: (List.replicate n .nan ++ xs))
        = .nan :: interpolateColumn (List.replicate n .nan ++ xs) := by
      simp [interpolateColumn]
    rw [h1, ih]
    rfl

theorem interpolateColumn_interior (a b : ℚ) (g : Nat) :
    interpolateColumn (.num a :: (List.replicate g .nan ++ [.num b])) =
      .num a :: ((List.range g).map
        (fun t : Nat => .num (a + (b - a) * (((t : ℚ) + 1) / ((g : ℚ) + 1)))) ++ [.num b]) := by
  have h1 : interpolateColumn (.num a :: (List.replicate g .nan ++ [.num b])) =
      .num a :: interpGo (.num a) 0 (List.replicate g .nan ++ [.num b]) := by
    simp [interpolateColumn]
  rw [h1, interpGo_gap_known (.num b) (by simp) [] (.num a) g 0]
  have h2 : (0 : Nat) + g = g := by omega
  rw [h2]
  have h3 : interpGo (.num b) 0 ([] : List PFloat) = [] := rfl
  rw [h3]
  rfl

theorem interpolateColumn_trailing (a : ℚ) (g : Nat) :
    interpolateColumn (.num a :: List.replicate g .nan) =
      .num a :: List.replicate g (.num a) := by
  have h1 : interpolateColumn (.num a :: List.replicate g .nan) =
      .num a :: interpGo (.num a) 0 (List.replicate g .nan) := by
    simp [interpolateColumn]
  rw [h1, interpGo_replicate_nan (.num a) g 0]
  have h2 : (0 : Nat) + g = g := by omega
  rw [h2]

/-! ### Claims -/

/-- C1 (amended): in the per-country table built by `fetch_for_countries`
the ratio cell at year y equals the float division of the aligned
market-cap and GDP cells.  For series whose stored cells are finite or
NaN, the ratio is a finite number exactly at years where both components
are present and the GDP value is nonzero; where GDP is 0 and the
market-cap value is a number a, the ratio is +∞ for a > 0 and −∞ for
a < 0 (a present, non-absent cell), and NaN only for a = 0 — the claim's
"{2021: absent}" for mc = 110, gdp = 0 does not hold (see the
counterexample): the cell is +∞. -/
theorem C1_ratio_amended (mc gdp : Series)
    (h1 : ∀ p ∈ mc, p.2.isFinite = true ∨ p.2 = PFloat.nan)
    (h2 : ∀ p ∈ gdp, p.2.isFinite = true ∨ p.2 = PFloat.nan) (y : Int) :
    tLookupBuffett (buildCountryTable mc gdp) y = pfDiv (sLookup mc y) (sLookup gdp y) ∧
    ((tLookupBuffett (buildCountryTable mc gdp) y).isFinite = true ↔
      (sLookup mc y).isFinite = true ∧ (sLookup gdp y).isFinite = true ∧
        sLookup gdp y ≠ PFloat.num 0) ∧
    (∀ a : ℚ, sLookup mc y = PFloat.num a → sLookup gdp y = PFloat.num 0 →
      tLookupBuffett (buildCountryTable mc gdp) y =
        (if 0 < a then PFloat.inf else if a < 0 then PFloat.neginf else PFloat.nan)) := by
  have hmc : (sLookup mc y).isFinite = true ∨ sLookup mc y = PFloat.nan := by
    rcases sLookup_mem_or_nan mc y with h | h
    · exact Or.inr h
    · exact h1 _ h
  have hgd : (sLookup gdp y).isFinite = true ∨ sLookup gdp y = PFloat.nan := by
    rcases sLookup_mem_or_nan gdp y with h | h
    · exact Or.inr h
    · exact h2 _ h
  refine ⟨tLookupBuffett_build mc gdp y, ?_, ?_⟩
  · rw [tLookupBuffett_build mc gdp y]
    cases hv : sLookup mc y with
    | nan => simp [pfDiv, PFloat.isFinite]
    | inf =>
      rw [hv] at hmc
      rcases hmc with h | h <;> simp [PFloat.isFinite] at h
    | neginf =>
      rw [hv] at hmc
      rcases hmc with h | h <;> simp [PFloat.isFinite] at h
    | num a =>
      cases hw : sLookup gdp y with
      | nan => simp [pfDiv, PFloat.isFinite]
      | inf =>
        rw [hw] at hgd
        rcases hgd with h | h <;> simp [PFloat.isFinite] at h
      | neginf =>
        rw [hw] at hgd
        rcases hgd with h | h <;> simp [PFloat.isFinite] at h
      | num b =>
        by_cases hb : b = 0
        · subst hb
          have hred : pfDiv (PFloat.num a) (PFloat.num 0) =
              (if 0 < a then PFloat.inf else if a < 0 then PFloat.neginf else PFloat.nan) := by
            simp [pfDiv]
          rw [hred]
          constructor
          · intro h
            exfalso
            rcases lt_trichotomy 0 a with h2 | h2 | h2
            · rw [if_pos h2] at h
              exact Bool.noConfusion h
            · rw [if_neg (by rw [← h2]; exact lt_irrefl 0),
                  if_neg (by rw [← h2]; exact lt_irrefl 0)] at h
              exact Bool.noConfusion h
            · rw [if_neg (lt_asymm h2), if_pos h2] at h
              exact Bool.noConfusion h
          · rintro ⟨-, -, h⟩
            exact absurd rfl h
        · simp [pfDiv, hb, PFloat.isFinite]
  · intro a ha hb
    rw [tLookupBuffett_build mc gdp y, ha, hb]
    simp [pfDiv]

/-- C1 counterexample: for the claim's own example mc = {2020: 100,
2021: 110}, gdp = {2020: 50, 2021: 0}, the ratio at 2021 is +∞, a
present (non-NaN) cell — not absent as the claim states.  (At 2020 the
ratio is 2.0 as claimed.) -/
theorem C1_counterexample :
    tLookupBuffett (buildCountryTable mcEx gdpEx) 2021 = PFloat.inf ∧
    PFloat.inf ≠ PFloat.nan ∧
    tLookupBuffett (buildCountryTable mcEx gdpEx) 2020 = PFloat.num 2 := by
  refine ⟨by decide, by decide, ?_⟩
  rw [tLookupBuffett_build]
  have h1 : sLookup mcEx 2020 = PFloat.num 100 := rfl
  have h2 : sLookup gdpEx 2020 = PFloat.num 50 := rfl
  rw [h1, h2]
  have h3 : (50 : ℚ) ≠ 0 := by norm_num
  simp only [pfDiv, if_neg h3]
  norm_num

/-- Witness for C1 (amended) at the worked example and year 2021. -/
theorem C1_ratio_amended_witness :
    (∀ p ∈ mcEx, p.2.isFinite = true ∨ p.2 = PFloat.nan) ∧
    (∀ p ∈ gdpEx, p.2.isFinite = true ∨ p.2 = PFloat.nan) ∧
    (tLookupBuffett (buildCountryTable mcEx gdpEx) 2021
        = pfDiv (sLookup mcEx 2021) (sLookup gdpEx 2021) ∧
      ((tLookupBuffett (buildCountryTable mcEx gdpEx) 2021).isFinite = true ↔
        (sLookup mcEx 2021).isFinite = true ∧ (sLookup gdpEx 2021).isFinite = true ∧
          sLookup gdpEx 2021 ≠ PFloat.num 0) ∧
      (∀ a : ℚ, sLookup mcEx 2021 = PFloat.num a → sLookup gdpEx 2021 = PFloat.num 0 →
        tLookupBuffett (buildCountryTable mcEx gdpEx) 2021 =
          (if 0 < a then PFloat.inf else if a < 0 then PFloat.neginf else PFloat.nan))) :=
  ⟨by decide, by decide, C1_ratio_amended mcEx gdpEx (by decide) (by decide) 2021⟩

/-- C3 (amended): under `interpolate(method="linear")` an interior gap
between two known values a and b is filled by positional linear
interpolation (with consecutive rows this is the claimed value
interpolation, e.g. {2019: 10, 2020: NaN, 2021: 20} fills 15 at 2020);
a leading gap with no known value before it stays absent; but a
trailing gap is NOT left absent: pandas forward-fills it with the last
known value (see the counterexample). -/
theorem C3_interpolation_amended (a b : ℚ) (g : Nat) (xs : List PFloat) :
    interpolateColumn (.num a :: (List.replicate g .nan ++ [.num b])) =
      .num a :: ((List.range g).map
        (fun t : Nat => .num (a + (b - a) * (((t : ℚ) + 1) / ((g : ℚ) + 1)))) ++ [.num b]) ∧
    interpolateColumn (List.replicate g .nan ++ xs) =
      List.replicate g .nan ++ interpolateColumn xs ∧
    interpolateColumn (.num a :: List.replicate g .nan) =
      .num a :: List.replicate g (.num a) :=
  ⟨interpolateColumn_interior a b g, interpolateColumn_leading g xs,
    interpolateColumn_trailing a g⟩

/-- C3 counterexample: a trailing gap {2019: 10, 2020: absent} is
forward-filled to 10.0 by `combined.interpolate(method="linear")`, not
left absent as the claim states. -/
theorem C3_counterexample :
    cellAt (interpolate_linear
        ⟨["A"], [((2019 : Int), [PFloat.num 10]), ((2020 : Int), [PFloat.nan])]⟩) 2020 0
      = PFloat.num 10 ∧ PFloat.num 10 ≠ PFloat.nan :=
  ⟨by decide, by decide⟩

/-- C7: `combine_countries_to_df` of the empty mapping returns the empty
table — no rows, no columns — and raises no error (it is total). -/
theorem C7_combine_empty : combine_countries_to_df [] = ⟨[], []⟩ := rfl

/-- The fetch issues exactly one HTTP request, unconditionally. -/
theorem fetch_count_one (http : WBRequest → HttpResp) (iso ind : String) (sy : Int)
    (ey : Option Int) (cy : Int) :
    (_fetch_indicator_for_country http iso ind sy ey cy).2 = 1 := by
  simp only [_fetch_indicator_for_country]
  split <;> rfl

/-- C5 (amended): `_fetch_indicator_for_country` performs no validation
of the year range at all.  Even for an invalid range (start > end, or
start before 1990, or end beyond the current year) it issues exactly one
HTTP request, and its outcome is determined solely by the response —
there is no ConfigurationError-class check before I/O. -/
theorem C5_no_year_validation (http : WBRequest → HttpResp) (iso ind : String) (sy : Int)
    (ey : Option Int) (cy : Int)
    (hinvalid : ey.getD cy < sy ∨ sy < 1990 ∨ cy < ey.getD cy) :
    (_fetch_indicator_for_country http iso ind sy ey cy).2 = 1 ∧
    (_fetch_indicator_for_country http iso ind sy ey cy).1 =
      (if 400 ≤ (http (requestFor iso ind sy (ey.getD cy))).status
       then Except.error (PyErr.httpError (http (requestFor iso ind sy (ey.getD cy))).status)
       else parseWBBody (http (requestFor iso ind sy (ey.getD cy))).body) := by
  refine ⟨fetch_count_one http iso ind sy ey cy, ?_⟩
  by_cases h : 400 ≤ (http (requestFor iso ind sy (ey.getD cy))).status <;>
    simp [_fetch_indicator_for_country, h]

/-- C5 counterexample: with start_year 2000 > end_year 1990 the fetch
raises nothing and still performs its one network call, returning the
parsed (empty) series — no ConfigurationError before I/O. -/
theorem C5_counterexample :
    _fetch_indicator_for_country stubHttp "USA" MARKETCAP_IND 2000 (some 1990) 2025
      = (Except.ok [], 1) ∧ (1990 : Int) < 2000 :=
  ⟨rfl, by decide⟩

/-- Witness for C5 (amended) at start_year 2000 > end_year 1990. -/
theorem C5_no_year_validation_witness :
    ((some (1990 : Int)).getD 2025 < 2000 ∨ (2000 : Int) < 1990 ∨
      (2025 : Int) < (some (1990 : Int)).getD 2025) ∧
    ((_fetch_indicator_for_country stubHttp "USA" MARKETCAP_IND 2000 (some 1990) 2025).2 = 1 ∧
     (_fetch_indicator_for_country stubHttp "USA" MARKETCAP_IND 2000 (some 1990) 2025).1 =
       (if 400 ≤ (stubHttp (requestFor "USA" MARKETCAP_IND 2000 ((some (1990 : Int)).getD 2025))).status
        then Except.error (PyErr.httpError
          (stubHttp (requestFor "USA" MARKETCAP_IND 2000 ((some (1990 : Int)).getD 2025))).status)
        else parseWBBody
          (stubHttp (requestFor "USA" MARKETCAP_IND 2000 ((some (1990 : Int)).getD 2025))).body)) :=
  ⟨Or.inl (by decide),
    C5_no_year_validation stubHttp "USA" MARKETCAP_IND 2000 (some 1990) 2025 (Or.inl (by decide))⟩

/-- C2 (amended): `fetch_for_countries` validates each name only when
the loop reaches it.  If the first unsupported name is preceded by
`pre.length` supported names whose fetches succeed, a ValueError
(ConfigurationError-class) is raised then, after 2 × pre.length fetch
invocations — zero network calls only when the unsupported name comes
first, not regardless of its position (see the counterexample). -/
theorem C2_fetch_amended (http : WBRequest → HttpResp) (sy : Int) (ey : Option Int) (cy : Int)
    (pre post : List String) (bad : String)
    (hbad : lookupCountry bad = none)
    (hpre : ∀ n ∈ pre, lookupCountry n ≠ none)
    (hok : ∀ iso ind, ∃ s, (_fetch_indicator_for_country http iso ind sy ey cy).1
      = Except.ok s) :
    fetch_for_countries http (pre ++ bad :: post) sy ey cy =
      (Except.error PyErr.valueError, 2 * pre.length) := by
  induction pre with
  | nil =>
    rw [List.nil_append]
    simp [fetch_for_countries, hbad]
  | cons name rest ih =>
    obtain ⟨iso, hiso⟩ : ∃ iso, lookupCountry name = some iso := by
      cases hl : lookupCountry name with
      | none => exact absurd hl (hpre name (List.mem_cons_self _ _))
      | some iso => exact ⟨iso, rfl⟩
    rcases hok iso MARKETCAP_IND with ⟨mc, hmc⟩
    rcases hok iso GDP_IND with ⟨gdp, hgdp⟩
    have hmc2 : _fetch_indicator_for_country http iso MARKETCAP_IND sy ey cy
        = (Except.ok mc, 1) :=
      Prod.ext hmc (fetch_count_one http iso MARKETCAP_IND sy ey cy)
    have hgdp2 : _fetch_indicator_for_country http iso GDP_IND sy ey cy
        = (Except.ok gdp, 1) :=
      Prod.ext hgdp (fetch_count_one http iso GDP_IND sy ey cy)
    have ihr := ih (fun n hn => hpre n (List.mem_cons_of_mem _ hn))
    rw [List.cons_append]
    simp only [fetch_for_countries, hiso, hmc2, hgdp2, ihr, List.length_cons]
    refine Prod.ext rfl ?_
    show 1 + 1 + 2 * rest.length = 2 * (rest.length + 1)
    omega

/-- C2 counterexample: with the unsupported name in second position,
two fetch invocations (for "United States") happen before the ValueError
is raised — not zero as the claim states. -/
theorem C2_counterexample :
    fetch_for_countries stubHttp ["United States", "Atlantis"] 1990 none 2025 =
      (Except.error PyErr.valueError, 2) ∧ (2 : Nat) ≠ 0 :=
  ⟨rfl, by decide⟩

/-- Witness for C2 (amended): one supported country before the
unsupported name gives exactly two fetch invocations. -/
theorem C2_fetch_amended_witness :
    lookupCountry "Atlantis" = none ∧
    (∀ n ∈ ["United States"], lookupCountry n ≠ none) ∧
    (∀ iso ind, ∃ s, (_fetch_indicator_for_country stubHttp iso ind 1990 none 2025).1
      = Except.ok s) ∧
    fetch_for_countries stubHttp (["United States"] ++ "Atlantis" :: []) 1990 none 2025 =
      (Except.error PyErr.valueError, 2 * (["United States"] : List String).length) :=
  ⟨rfl, by decide, fun iso ind => ⟨[], rfl⟩,
    C2_fetch_amended stubHttp 1990 none 2025 ["United States"] [] "Atlantis" rfl
      (by decide) (fun iso ind => ⟨[], rfl⟩)⟩

/-- A body that is not a list of length at least 2 parses to the empty
series. -/
theorem parseWBBody_not_two (data : Json)
    (hshape : ∀ l : List Json, data = Json.arr l → l.length < 2) :
    parseWBBody data = .ok [] := by
  cases data with
  | arr l =>
    cases l with
    | nil => rfl
    | cons a t =>
      cases t with
      | nil => rfl
      | cons b t2 =>
        have h := hshape (a :: b :: t2) rfl
        simp only [List.length_cons] at h
        omega
  | null => rfl
  | bool b => rfl
  | num q => rfl
  | str s => rfl
  | obj f => rfl

/-- C4: whenever the HTTP call succeeds but the response body is not a
JSON array of at least two elements (a single-element array, an object,
any non-list value), the fetch returns the empty series and raises no
exception. -/
theorem C4_malformed_body (http : WBRequest → HttpResp) (iso ind : String) (sy : Int)
    (ey : Option Int) (cy : Int)
    (hstatus : (http (requestFor iso ind sy (ey.getD cy))).status < 400)
    (hshape : ∀ l : List Json,
      (http (requestFor iso ind sy (ey.getD cy))).body = Json.arr l → l.length < 2) :
    _fetch_indicator_for_country http iso ind sy ey cy = (Except.ok [], 1) := by
  simp only [_fetch_indicator_for_country]
  rw [if_neg (by omega : ¬ 400 ≤ (http (requestFor iso ind sy (ey.getD cy))).status)]
  rw [parseWBBody_not_two _ hshape]

/-- Witness for C4 at a stub whose body is a JSON object. -/
theorem C4_malformed_body_witness :
    (stubHttp (requestFor "USA" MARKETCAP_IND 1990 ((none : Option Int).getD 2025))).status < 400 ∧
    (∀ l : List Json,
      (stubHttp (requestFor "USA" MARKETCAP_IND 1990 ((none : Option Int).getD 2025))).body
        = Json.arr l → l.length < 2) ∧
    _fetch_indicator_for_country stubHttp "USA" MARKETCAP_IND 1990 none 2025
      = (Except.ok [], 1) :=
  ⟨by decide, fun l h => Json.noConfusion h,
    C4_malformed_body stubHttp "USA" MARKETCAP_IND 1990 none 2025 (by decide)
      (fun l h => Json.noConfusion h)⟩

/-- C8 (amended): the fetch performs no year filtering of its own — the
returned series' years are exactly the parsed record years, so the
invariant "years ⊆ [start, end]" holds only when the remote service
honors the date parameter: if every parsed record year lies in
[lo, hi], so does every year of the returned series.  For a response
with an out-of-range record year the series contains that year (see the
counterexample). -/
theorem C8_years_amended (http : WBRequest → HttpResp) (iso ind : String) (sy : Int)
    (ey : Option Int) (cy : Int) (meta records : Json) (rest : List Json)
    (items : List Json) (recs : List (Int × PFloat)) (lo hi : Int)
    (hstatus : (http (requestFor iso ind sy (ey.getD cy))).status < 400)
    (hbody : (http (requestFor iso ind sy (ey.getD cy))).body = Json.arr (meta :: records :: rest))
    (hiter : iterRecords records = Except.ok items)
    (hparse : parseRecords items = Except.ok recs)
    (hrange : ∀ p ∈ recs, lo ≤ p.1 ∧ p.1 ≤ hi) :
    (_fetch_indicator_for_country http iso ind sy ey cy).1 = Except.ok (buildSeries recs) ∧
    ∀ y ∈ (buildSeries recs).map Prod.fst, lo ≤ y ∧ y ≤ hi := by
  constructor
  · simp only [_fetch_indicator_for_country]
    rw [if_neg (by omega : ¬ 400 ≤ (http (requestFor iso ind sy (ey.getD cy))).status)]
    show parseWBBody _ = _
    rw [hbody]
    simp [parseWBBody, hiter, hparse]
  · intro y hy
    rw [mem_keys_buildSeries] at hy
    rcases List.mem_map.mp hy with ⟨p, hp, hpy⟩
    rcases hrange p hp with ⟨hl, hh⟩
    exact ⟨hpy ▸ hl, hpy ▸ hh⟩

/-- C8 counterexample: a response record dated 1980 is kept verbatim in
the series fetched for the window [1990, 2000] — the code never checks
the fetch window. -/
theorem C8_counterexample :
    (_fetch_indicator_for_country oorHttp "USA" MARKETCAP_IND 1990 (some 2000) 2025).1 =
      Except.ok [((1980 : Int), PFloat.num 5)] ∧ ¬ ((1990 : Int) ≤ 1980) :=
  ⟨by rfl, by decide⟩

/-- Witness for C8 (amended) on an in-range single-record response. -/
theorem C8_years_amended_witness :
    ((stubHttp2 (requestFor "USA" GDP_IND 1990 ((some (2000 : Int)).getD 2025))).status < 400) ∧
    ((stubHttp2 (requestFor "USA" GDP_IND 1990 ((some (2000 : Int)).getD 2025))).body
      = Json.arr (Json.null :: Json.arr [recEx] :: [])) ∧
    (iterRecords (Json.arr [recEx]) = Except.ok [recEx]) ∧
    (parseRecords [recEx] = Except.ok [(1995, PFloat.num 7)]) ∧
    (∀ p ∈ [((1995 : Int), PFloat.num 7)], (1990 : Int) ≤ p.1 ∧ p.1 ≤ (2000 : Int)) ∧
    ((_fetch_indicator_for_country stubHttp2 "USA" GDP_IND 1990 (some 2000) 2025).1
      = Except.ok (buildSeries [(1995, PFloat.num 7)]) ∧
     ∀ y ∈ (buildSeries [((1995 : Int), PFloat.num 7)]).map Prod.fst,
       (1990 : Int) ≤ y ∧ y ≤ 2000) :=
  ⟨by decide, rfl, rfl, by rfl, by decide,
    C8_years_amended stubHttp2 "USA" GDP_IND 1990 (some 2000) 2025 Json.null
      (Json.arr [recEx]) [] [recEx] [(1995, PFloat.num 7)] 1990 2000
      (by decide) rfl rfl (by rfl) (by decide)⟩

/-- C9: in a well-formed response (records parse, one record per year),
a record whose value field is JSON null is parsed to a NaN cell and is
retained in the returned series: its year is in the series index,
mapped to the absent value — not dropped. -/
theorem C9_null_retained (items : List Json) (recs : List (Int × PFloat))
    (fields : List (String × Json)) (y : Int) (v : PFloat)
    (hparse : parseRecords items = Except.ok recs)
    (hmem : Json.obj fields ∈ items)
    (hnull : jsonGet fields "value" = some Json.null)
    (hrec : parseRecord (Json.obj fields) = Except.ok (y, v))
    (hnd : (recs.map Prod.fst).Nodup) :
    v = PFloat.nan ∧ y ∈ (buildSeries recs).map Prod.fst ∧
      sLookup (buildSeries recs) y = PFloat.nan := by
  have hv : v = PFloat.nan := by
    cases hd : jsonGet fields "date" with
    | none => simp [parseRecord, hd] at hrec
    | some d =>
      cases hy2 : pyInt d with
      | error e => simp [parseRecord, hd, hy2] at hrec
      | ok year =>
        simp [parseRecord, hd, hy2, hnull] at hrec
        exact hrec.2.symm
  have hrec2 : parseRecord (Json.obj fields) = Except.ok (y, PFloat.nan) := hv ▸ hrec
  have hmemr : (y, PFloat.nan) ∈ recs := parseRecords_ok_mem hparse hmem hrec2
  refine ⟨hv, ?_, ?_⟩
  · rw [mem_keys_buildSeries]
    exact List.mem_map_of_mem Prod.fst hmemr
  · exact sLookup_buildSeries hnd hmemr

/-- Witness for C9: a null-valued record for 2020 is retained as
2020 ↦ NaN. -/
theorem C9_null_retained_witness :
    (parseRecords [nullRecEx] = Except.ok [(2020, PFloat.nan)]) ∧
    (nullRecEx ∈ [nullRecEx]) ∧
    (jsonGet [("date", Json.str "2020"), ("value", Json.null)] "value" = some Json.null) ∧
    (parseRecord nullRecEx = Except.ok (2020, PFloat.nan)) ∧
    (([((2020 : Int), PFloat.nan)].map Prod.fst).Nodup) ∧
    (PFloat.nan = PFloat.nan ∧
      (2020 : Int) ∈ (buildSeries [((2020 : Int), PFloat.nan)]).map Prod.fst ∧
      sLookup (buildSeries [((2020 : Int), PFloat.nan)]) 2020 = PFloat.nan) :=
  ⟨rfl, List.mem_cons_self _ _, rfl, rfl, by decide,
    C9_null_retained [nullRecEx] [(2020, PFloat.nan)]
      [("date", Json.str "2020"), ("value", Json.null)] 2020 PFloat.nan
      rfl (List.mem_cons_self _ _) rfl rfl (by decide)⟩

/-- C10: when the top-level shape is fine (a two-or-more element array
whose second element is a list) but some record is an object lacking a
"date" key, or whose "date" is an unparseable string, or lacking a
"value" key, the fetch raises an exception (KeyError or ValueError) —
the soft-fail downgrade to an empty series applies only to the
top-level shape. -/
theorem C10_bad_record_raises (http : WBRequest → HttpResp) (iso ind : String) (sy : Int)
    (ey : Option Int) (cy : Int) (meta : Json) (records : List Json) (rest : List Json)
    (fields : List (String × Json))
    (hstatus : (http (requestFor iso ind sy (ey.getD cy))).status < 400)
    (hbody : (http (requestFor iso ind sy (ey.getD cy))).body
      = Json.arr (meta :: Json.arr records :: rest))
    (hmem : Json.obj fields ∈ records)
    (hbad : jsonGet fields "date" = none ∨
        (∃ s, jsonGet fields "date" = some (Json.str s) ∧ pyIntOfString s = none) ∨
        jsonGet fields "value" = none) :
    ∃ e, (_fetch_indicator_for_country http iso ind sy ey cy).1 = Except.error e := by
  have hbadrec : ∃ e, parseRecord (Json.obj fields) = Except.error e := by
    rcases hbad with h | ⟨s, hs, hps⟩ | h
    · exact ⟨.keyError "date", by simp [parseRecord, h]⟩
    · exact ⟨.valueError, by simp [parseRecord, hs, pyInt, hps]⟩
    · cases hd : jsonGet fields "date" with
      | none => exact ⟨.keyError "date", by simp [parseRecord, hd]⟩
      | some d =>
        cases hp : pyInt d with
        | error e => exact ⟨e, by simp [parseRecord, hd, hp]⟩
        | ok year => exact ⟨.keyError "value", by simp [parseRecord, hd, hp, h]⟩
  rcases hbadrec with ⟨e, he⟩
  rcases parseRecords_error_of_mem hmem he with ⟨e2, he2⟩
  refine ⟨e2, ?_⟩
  simp only [_fetch_indicator_for_country]
  rw [if_neg (by omega : ¬ 400 ≤ (http (requestFor iso ind sy (ey.getD cy))).status)]
  show parseWBBody _ = _
  rw [hbody]
  simp [parseWBBody, iterRecords, he2]

/-- Witness for C10 on a record that lacks the "date" key. -/
theorem C10_bad_record_raises_witness :
    ((badHttp (requestFor "USA" MARKETCAP_IND 1990 ((none : Option Int).getD 2025))).status < 400) ∧
    ((badHttp (requestFor "USA" MARKETCAP_IND 1990 ((none : Option Int).getD 2025))).body
      = Json.arr (Json.null :: Json.arr [Json.obj [("value", Json.num 1)]] :: [])) ∧
    (Json.obj [("value", Json.num 1)] ∈ [Json.obj [("value", Json.num 1)]]) ∧
    (jsonGet [("value", Json.num 1)] "date" = none) ∧
    ∃ e, (_fetch_indicator_for_country badHttp "USA" MARKETCAP_IND 1990 none 2025).1
      = Except.error e :=
  ⟨by decide, rfl, List.mem_cons_self _ _, rfl,
    C10_bad_record_raises badHttp "USA" MARKETCAP_IND 1990 none 2025 Json.null
      [Json.obj [("value", Json.num 1)]] [] [("value", Json.num 1)]
      (by decide) rfl (List.mem_cons_self _ _) (Or.inl rfl)⟩

/-- Ratio lookup misses give NaN. -/
theorem tLookupBuffett_eq_nan_of_not_mem {t : CountryTable} {y : Int}
    (hy : y ∉ t.map Prod.fst) : tLookupBuffett t y = .nan := by
  unfold tLookupBuffett
  have hf : t.find? (fun r => r.1 == y) = none := by
    rw [List.find?_eq_none]
    intro p hp hpy
    have hpe : p.1 = y := by simpa using hpy
    have hm : p.1 ∈ t.map Prod.fst := List.mem_map_of_mem Prod.fst hp
    rw [hpe] at hm
    exact hy hm
  rw [hf]

/-- Explicit form of `combine_countries_to_df` on a nonempty mapping:
rows at the sorted deduplicated union of all tables' years, one cell per
country holding its ratio at that year times 100. -/
theorem combine_eq (country_data : List (String × CountryTable)) (hne : country_data ≠ []) :
    combine_countries_to_df country_data =
      ⟨country_data.map Prod.fst,
       (List.insertionSort (fun a b => a ≤ b)
           ((country_data.map (fun p => p.2.map Prod.fst)).flatten.dedup)).map
         (fun y => (y, country_data.map (fun p => pfMul (tLookupBuffett p.2 y) (PFloat.num 100))))⟩ := by
  have hfe : (country_data.map (fun p : String × CountryTable =>
      (p.1, (tableBuffettSeries p.2).map (fun q => (q.1, pfMul q.2 (PFloat.num 100)))))).isEmpty
      = false := by
    rw [List.isEmpty_eq_false]
    simp only [ne_eq, List.map_eq_nil_iff]
    exact hne
  simp only [combine_countries_to_df, hfe, Bool.false_eq_true, if_false]
  congr 1
  · rw [List.map_map]
    rfl
  · have hkeys : (country_data.map (fun p : String × CountryTable =>
        (p.1, (tableBuffettSeries p.2).map (fun q => (q.1, pfMul q.2 (PFloat.num 100)))))).map
          (fun f => f.2.map Prod.fst)
        = country_data.map (fun p => p.2.map Prod.fst) := by
      rw [List.map_map]
      apply List.map_congr_left
      intro p hp
      show ((tableBuffettSeries p.2).map (fun q => (q.1, pfMul q.2 (PFloat.num 100)))).map
          Prod.fst = p.2.map Prod.fst
      rw [List.map_map]
      show (tableBuffettSeries p.2).map Prod.fst = p.2.map Prod.fst
      unfold tableBuffettSeries
      rw [List.map_map]
      rfl
    rw [hkeys]
    apply List.map_congr_left
    intro y hy
    congr 1
    rw [List.map_map]
    apply List.map_congr_left
    intro p hp
    show sLookup ((tableBuffettSeries p.2).map (fun q => (q.1, pfMul q.2 (PFloat.num 100)))) y
      = pfMul (tLookupBuffett p.2 y) (PFloat.num 100)
    rw [sLookup_valMap (tableBuffettSeries p.2) (fun v => pfMul v (PFloat.num 100)) rfl y,
        sLookup_tableBuffettSeries]

/-- C6: for a nonempty mapping, `combine_countries_to_df` returns a
table whose columns are the countries' display names in input order,
whose row keys are exactly the union of the tables' years, sorted
ascending without duplicates, and whose cell for country i at year y is
that country's ratio at y times 100 (percent) — NaN (absent) whenever
the country's table lacks that year. -/
theorem C6_combine (country_data : List (String × CountryTable)) (hne : country_data ≠ []) :
    (combine_countries_to_df country_data).columns = country_data.map Prod.fst ∧
    ((combine_countries_to_df country_data).rows.map Prod.fst).Sorted (· ≤ ·) ∧
    ((combine_countries_to_df country_data).rows.map Prod.fst).Nodup ∧
    (∀ y : Int, y ∈ (combine_countries_to_df country_data).rows.map Prod.fst ↔
      ∃ p ∈ country_data, y ∈ p.2.map Prod.fst) ∧
    (∀ (i : Nat) (name : String) (t : CountryTable) (y : Int),
      country_data[i]? = some (name, t) →
      cellAt (combine_countries_to_df country_data) y i
        = pfMul (tLookupBuffett t y) (PFloat.num 100)) ∧
    (∀ (i : Nat) (name : String) (t : CountryTable) (y : Int),
      country_data[i]? = some (name, t) → y ∉ t.map Prod.fst →
      cellAt (combine_countries_to_df country_data) y i = PFloat.nan) := by
  have hq := combine_eq country_data hne
  have hrowkeys : (combine_countries_to_df country_data).rows.map Prod.fst =
      List.insertionSort (fun a b : Int => a ≤ b)
        ((country_data.map (fun p => p.2.map Prod.fst)).flatten.dedup) := by
    rw [hq]
    show (List.map _ _).map Prod.fst = _
    rw [List.map_map]
    show List.map (fun y : Int => y) _ = _
    rw [show (fun y : Int => y) = id from rfl, List.map_id]
  have hcell : ∀ (i : Nat) (name : String) (t : CountryTable) (y : Int),
      country_data[i]? = some (name, t) →
      cellAt (combine_countries_to_df country_data) y i
        = pfMul (tLookupBuffett t y) (PFloat.num 100) := by
    intro i name t y hget
    rw [hq]
    unfold cellAt
    show (match (List.map (fun z => (z,
        country_data.map (fun p => pfMul (tLookupBuffett p.2 z) (PFloat.num 100))))
          (List.insertionSort (fun a b : Int => a ≤ b)
            ((country_data.map (fun p => p.2.map Prod.fst)).flatten.dedup))).find?
          (fun r => r.1 == y) with
      | some r => r.2.getD i PFloat.nan
      | none => PFloat.nan) = _
    rw [find?_keyMap]
    by_cases hy : y ∈ List.insertionSort (fun a b : Int => a ≤ b)
        ((country_data.map (fun p => p.2.map Prod.fst)).flatten.dedup)
    · rw [if_pos hy]
      show (country_data.map (fun p => pfMul (tLookupBuffett p.2 y) (PFloat.num 100))).getD i
          PFloat.nan = _
      rw [List.getD_eq_getElem?_getD, List.getElem?_map, hget]
      rfl
    · rw [if_neg hy]
      show PFloat.nan = _
      have hmem : (name, t) ∈ country_data := List.getElem?_mem hget
      have hnk : y ∉ t.map Prod.fst := by
        intro hk
        apply hy
        rw [List.mem_insertionSort, List.mem_dedup, List.mem_flatten]
        exact ⟨t.map Prod.fst, List.mem_map.mpr ⟨(name, t), hmem, rfl⟩, hk⟩
      rw [tLookupBuffett_eq_nan_of_not_mem hnk]
      rfl
  refine ⟨?_, ?_, ?_, ?_, hcell, ?_⟩
  · rw [hq]
  · rw [hrowkeys]
    exact List.sorted_insertionSort _ _
  · rw [hrowkeys]
    exact ((List.perm_insertionSort _ _).symm).nodup (List.nodup_dedup _)
  · intro y
    rw [hrowkeys, List.mem_insertionSort, List.mem_dedup, List.mem_flatten]
    constructor
    · rintro ⟨l, hl, hyl⟩
      rcases List.mem_map.mp hl with ⟨p, hp, rfl⟩
      exact ⟨p, hp, hyl⟩
    · rintro ⟨p, hp, hyp⟩
      exact ⟨p.2.map Prod.fst, List.mem_map.mpr ⟨p, hp, rfl⟩, hyp⟩
  · intro i name t y hget hnk
    rw [hcell i name t y hget, tLookupBuffett_eq_nan_of_not_mem hnk]
    rfl

/-- Witness for C6 at the spec's two-country example. -/
theorem C6_combine_witness :
    (dataEx ≠ []) ∧
    ((combine_countries_to_df dataEx).columns = dataEx.map Prod.fst ∧
     ((combine_countries_to_df dataEx).rows.map Prod.fst).Sorted (· ≤ ·) ∧
     ((combine_countries_to_df dataEx).rows.map Prod.fst).Nodup ∧
     (∀ y : Int, y ∈ (combine_countries_to_df dataEx).rows.map Prod.fst ↔
       ∃ p ∈ dataEx, y ∈ p.2.map Prod.fst) ∧
     (∀ (i : Nat) (name : String) (t : CountryTable) (y : Int),
       dataEx[i]? = some (name, t) →
       cellAt (combine_countries_to_df dataEx) y i
         = pfMul (tLookupBuffett t y) (PFloat.num 100)) ∧
     (∀ (i : Nat) (name : String) (t : CountryTable) (y : Int),
       dataEx[i]? = some (name, t) → y ∉ t.map Prod.fst →
       cellAt (combine_countries_to_df dataEx) y i = PFloat.nan)) :=
  ⟨by decide, C6_combine dataEx (by decide)⟩
